import Mathlib

/-!
Verification of the coffeeAGNTCY lungo multi-agent logistic core:
a shallow embedding of `common/logistic_states.py`, the deterministic
logistic agents (farm / shipper / accountant), the supervisor routing
helpers, the A2A response aggregator and the `create_order` broadcast
tool, together with theorems settling the specification's claims.
-/

namespace CoffeeAgntcy

/-! ## Python string primitives (ASCII model) -/

/-- Characters removed by Python `str.strip()` (ASCII whitespace). -/
def isPySpace (c : Char) : Bool :=
  c = ' ' || c = '\t' || c = '\n' || c = '\r' || c = Char.ofNat 11 || c = Char.ofNat 12

/-- `str.strip()` on a character list. -/
def pyStripL (l : List Char) : List Char :=
  ((l.dropWhile isPySpace).reverse.dropWhile isPySpace).reverse

/-- Python `str.strip()`. -/
def pyStrip (s : String) : String := ⟨pyStripL s.data⟩

/-- Python `str.lower()` (ASCII model). -/
def pyLower (s : String) : String := ⟨s.data.map Char.toLower⟩

/-- Python `str.upper()` (ASCII model). -/
def pyUpper (s : String) : String := ⟨s.data.map Char.toUpper⟩

/-- Boolean character-list equality test used by the matcher. -/
def chEq (a b : Char) : Bool := a = b

/-- `needle` is a leading segment of `hay`. -/
def leadsL : List Char → List Char → Bool
  | [], _ => true
  | _ :: _, [] => false
  | a :: as, b :: bs => chEq a b && leadsL as bs

/-- `needle` occurs somewhere inside `hay` (Python `needle in hay`). -/
def subL (n : List Char) : List Char → Bool
  | [] => n.isEmpty
  | c :: rest => leadsL n (c :: rest) || subL n rest

/-- Python substring containment `needle in hay`. -/
def containsSubstr (needle hay : String) : Bool := subL needle.data hay.data

/-! ## StatusLattice: `common/logistic_states.py` -/

/-- The `LogisticStatus` enumeration. -/
inductive LogisticStatus
  | RECEIVED_ORDER
  | HANDOVER_TO_SHIPPER
  | CUSTOMS_CLEARANCE
  | PAYMENT_COMPLETE
  | DELIVERED
  | STATUS_UNKNOWN
deriving DecidableEq, Repr

/-- The string value of each enumeration member. -/
def LogisticStatus.value : LogisticStatus → String
  | .RECEIVED_ORDER => "RECEIVED_ORDER"
  | .HANDOVER_TO_SHIPPER => "HANDOVER_TO_SHIPPER"
  | .CUSTOMS_CLEARANCE => "CUSTOMS_CLEARANCE"
  | .PAYMENT_COMPLETE => "PAYMENT_COMPLETE"
  | .DELIVERED => "DELIVERED"
  | .STATUS_UNKNOWN => "STATUS_UNKNOWN"

/-- `STATUS_LOOKUP = {s.value: s for s in LogisticStatus}` in insertion
(definition) order, as iterated by `extract_status`. -/
def STATUS_LOOKUP : List (String × LogisticStatus) :=
  [ ("RECEIVED_ORDER", .RECEIVED_ORDER),
    ("HANDOVER_TO_SHIPPER", .HANDOVER_TO_SHIPPER),
    ("CUSTOMS_CLEARANCE", .CUSTOMS_CLEARANCE),
    ("PAYMENT_COMPLETE", .PAYMENT_COMPLETE),
    ("DELIVERED", .DELIVERED),
    ("STATUS_UNKNOWN", .STATUS_UNKNOWN) ]

/-- The loop body of `extract_status`: first key contained in `message` wins. -/
def extractStatusLoop (message : String) : List (String × LogisticStatus) → LogisticStatus
  | [] => .STATUS_UNKNOWN
  | (key, status) :: rest =>
      if containsSubstr key message then status else extractStatusLoop message rest

/-- `extract_status(message)`: scans `STATUS_LOOKUP` in insertion order and
returns the first status whose key occurs in `message`; otherwise
`STATUS_UNKNOWN`. Every return site yields an enumeration member, so the
embedding's result type is `LogisticStatus` even though the Python
annotation is `LogisticStatus | None`. -/
def extract_status (message : String) : LogisticStatus :=
  extractStatusLoop message STATUS_LOOKUP

/-- The five non-sentinel canonical status tokens. -/
def canonicalTokens : List String :=
  ["RECEIVED_ORDER", "HANDOVER_TO_SHIPPER", "CUSTOMS_CLEARANCE",
   "PAYMENT_COMPLETE", "DELIVERED"]

/-! ## StatefulAgent nodes (farm / shipper / accountant)

Each agent's single LangGraph node, as a function of the content string of
the last inbound message. -/

/-- `FarmAgent._farm_node` on the last message's content. -/
def farmNode (text : String) : String :=
  let raw := pyStrip text
  if extract_status raw = .RECEIVED_ORDER then
    LogisticStatus.HANDOVER_TO_SHIPPER.value
  else
    "Action 'None' received. No shipper handling required. Shipper remains IDLE. No further action required."

/-- `ShipperAgent._shipper_node` on the last message's content. -/
def shipperNode (text : String) : String :=
  let c := pyUpper (pyStrip text)
  if c = "HANDOVER_TO_SHIPPER" then "CUSTOMS_CLEARANCE"
  else if c = "PAYMENT_COMPLETE" then "DELIVERED"
  else "SHIPPER_IDLE"

/-- `AccountantAgent._accountant_node` on the last message's content. -/
def accountantNode (text : String) : String :=
  let c := pyUpper (pyStrip text)
  if containsSubstr "CUSTOMS_CLEARANCE" c then "PAYMENT_COMPLETE"
  else "Accountant idle, no action taken."

/-! ## ResponseAggregator: `_summarize_a2a_responses` -/

/-- A word character for the regex `\b` boundary (ASCII model of `\w`). -/
def isWordChar (c : Char) : Bool := c.isAlpha || c.isDigit || c = '_'

/-- A position is a word boundary against the optional adjacent character. -/
def boundaryOk : Option Char → Bool
  | none => true
  | some c => ! isWordChar c

/-- Case-insensitively strip a lowercase pattern from the front of `cs`. -/
def stripLowerPattern : List Char → List Char → Option (List Char)
  | [], cs => some cs
  | _ :: _, [] => none
  | p :: ps, c :: cs => if c.toLower = p then stripLowerPattern ps cs else none

/-- Scan for `re.search(r"\bdelivered\b", text, re.IGNORECASE)`:
`prev` is the character just before the current position. -/
def deliveredScan (prev : Option Char) : List Char → Bool
  | [] => false
  | c :: rest =>
      (boundaryOk prev &&
        (match stripLowerPattern "delivered".data (c :: rest) with
         | some tail => boundaryOk tail.head?
         | none => false))
      || deliveredScan (some c) rest

/-- Whether `text` contains `delivered` as a case-insensitive whole word. -/
def hasDeliveredWord (text : String) : Bool := deliveredScan none text.data

/-- One raw A2A response, as far as `_summarize_a2a_responses` inspects it:
`malformed` models any attribute access in the `try` block raising (the
response is then skipped); `name` is `msg.metadata.get("name")` when
present; `parts` are the `text` attributes of `msg.parts`. -/
structure RawResponse where
  malformed : Bool
  name : Option String
  parts : List String
deriving Repr

/-- The sender name: `(msg.metadata or {}).get("name", "Unknown")`. -/
def RawResponse.sender (r : RawResponse) : String := r.name.getD "Unknown"

/-- First non-empty stripped part text, else `""`:
`next((t for p in parts if (t := strip(p.text))), "")`. -/
def extractText (parts : List String) : String :=
  (((parts.map pyStrip).filter (fun t => t ≠ "")).head?).getD ""

/-- Mutable loop state of `_summarize_a2a_responses`. -/
structure AggState where
  order : List String
  statuses : List (String × List String)
  delivered : List String
  seen : Bool
deriving Repr

/-- Initial loop state. -/
def aggInit : AggState := ⟨[], [], [], false⟩

/-- Association-list lookup (Python `dict` read). -/
def lookupS : List (String × List String) → String → Option (List String)
  | [], _ => none
  | (k, v) :: rest, a => if k = a then some v else lookupS rest a

/-- Association-list overwrite at an existing key (Python `dict` write). -/
def setS (m : List (String × List String)) (k : String) (v : List String) :
    List (String × List String) :=
  m.map (fun p => if p.1 = k then (k, v) else p)

/-- One iteration of the `for response in responses` loop. -/
def codeStep (s : AggState) (r : RawResponse) : AggState :=
  if r.malformed then s
  else
    let name := r.sender
    let text := extractText r.parts
    if text = "" then s
    else if containsSubstr "idle" (pyLower text) then s
    else if hasDeliveredWord text then
      { s with delivered := s.delivered ++ [name ++ ": " ++ text], seen := true }
    else
      let present := (lookupS s.statuses name).isSome
      let m0 := if present then s.statuses else s.statuses ++ [(name, [])]
      let order := if present then s.order else s.order ++ [name]
      let cur := (lookupS m0 name).getD []
      let m1 := if cur = [] ∨ cur.getLast? ≠ some text then setS m0 name (cur ++ [text]) else m0
      { s with order := order, statuses := m1 }

/-- Rendering phase after the loop. -/
def renderAgg (s : AggState) : String :=
  if s.order = [] ∧ s.delivered = [] then "No non-idle status updates received."
  else
    let segments :=
      (s.order.filterMap (fun agent =>
        match lookupS s.statuses agent with
        | some l => if l = [] then none else some (agent ++ ": " ++ String.intercalate ", " l)
        | none => none)) ++ s.delivered
    let summary := "Order status updates: " ++ String.intercalate " | " segments
    if s.seen then summary ++ " (final)" else summary

/-- `_summarize_a2a_responses(responses)`. -/
def summarizeA2AResponses (responses : List RawResponse) : String :=
  renderAgg (responses.foldl codeStep aggInit)

/-! ### Reference aggregator, following the spec §4.3 clause by clause -/

/-- Classification of one response by the spec's rules 1–3. -/
inductive AggEvent
  | deliveredSeg (segment : String)
  | status (sender text : String)
deriving DecidableEq, Repr

/-- Rules 1–2: parse one response into an event, or skip it (`none`) when it
is malformed, has empty extracted text, or contains `idle`. -/
def parseResponse (r : RawResponse) : Option AggEvent :=
  if r.malformed then none
  else
    let text := extractText r.parts
    if text = "" then none
    else if containsSubstr "idle" (pyLower text) then none
    else if hasDeliveredWord text then some (.deliveredSeg (r.sender ++ ": " ++ text))
    else some (.status r.sender text)

/-- The sender of a non-delivered status event. -/
def eventSender : AggEvent → Option String
  | .deliveredSeg _ => none
  | .status sender _ => some sender

/-- First-seen-sender order, extending an already-recorded order. -/
def firstSeenFrom (acc : List String) : List AggEvent → List String
  | [] => acc
  | e :: rest =>
      match eventSender e with
      | some n => firstSeenFrom (if n ∈ acc then acc else acc ++ [n]) rest
      | none => firstSeenFrom acc rest

/-- Rule 3's per-sender order: first-seen sender order. -/
def firstSeenSenders (evs : List AggEvent) : List String := firstSeenFrom [] evs

/-- The texts a given sender contributed, in encounter order. -/
def textsOf (evs : List AggEvent) (sender : String) : List String :=
  evs.filterMap (fun e =>
    match e with
    | .status s t => if s = sender then some t else none
    | .deliveredSeg _ => none)

/-- Append one text, skipping it when it equals the immediately previous
entry (rule 3's adjacent-dedup). -/
def dedupPush (cur : List String) (t : String) : List String :=
  if cur.getLast? = some t then cur else cur ++ [t]

/-- Adjacent-dedup continuation of `cur` by the texts `ts`. -/
def dedupAppend (cur : List String) (ts : List String) : List String :=
  ts.foldl dedupPush cur

/-- Rule 3's sender list: adjacent-dedup of the sender's texts. -/
def adjacentDedup (ts : List String) : List String := dedupAppend [] ts

/-- Rule 2's delivered segments, in encounter order. -/
def deliveredSegsOf (evs : List AggEvent) : List String :=
  evs.filterMap (fun e =>
    match e with
    | .deliveredSeg seg => some seg
    | .status _ _ => none)

/-- Rule 2's `delivered_seen` flag. -/
def deliveredSeenOf (evs : List AggEvent) : Bool :=
  evs.any (fun e =>
    match e with
    | .deliveredSeg _ => true
    | .status _ _ => false)

/-- The spec §4.3 reference algorithm, assembled from rules 1–6. -/
def specSummarize (responses : List RawResponse) : String :=
  let evs := responses.filterMap parseResponse
  let order := firstSeenSenders evs
  let delivered := deliveredSegsOf evs
  if order = [] ∧ delivered = [] then "No non-idle status updates received."
  else
    let segments :=
      (order.map (fun agent =>
        agent ++ ": " ++ String.intercalate ", " (adjacentDedup (textsOf evs agent)))) ++ delivered
    let summary := "Order status updates: " ++ String.intercalate " | " segments
    if deliveredSeenOf evs then summary ++ " (final)" else summary

/-! ### Equivalence of the loop with the reference algorithm -/

/-- The event-level loop step: `codeStep` after the parsing phase. -/
def stepEv (s : AggState) : AggEvent → AggState
  | .deliveredSeg seg => { s with delivered := s.delivered ++ [seg], seen := true }
  | .status name text =>
      let present := (lookupS s.statuses name).isSome
      let m0 := if present then s.statuses else s.statuses ++ [(name, [])]
      let order := if present then s.order else s.order ++ [name]
      let cur := (lookupS m0 name).getD []
      let m1 := if cur = [] ∨ cur.getLast? ≠ some text then setS m0 name (cur ++ [text]) else m0
      { s with order := order, statuses := m1 }

/-- Loop-state wellformedness: the dict's keys are exactly the recorded
first-seen senders (holds by construction from `aggInit`). -/
def WF (s : AggState) : Prop := ∀ a, (lookupS s.statuses a).isSome ↔ a ∈ s.order


/-! ## SupervisorRouter and graph-node message model -/

/-- A transcript message, as far as the routing and node logic inspects it:
`ai` carries the LLM tool-call list (ids as produced by `tc.get("id")`,
possibly absent); `toolRes` is a `ToolMessage` carrying its
`tool_call_id` (and, for faithfulness to the `isinstance` check coming
first, a tool-call attribute that the routers must ignore). -/
inductive ChatMsg
  | human (content : String)
  | ai (content : String) (toolCalls : List (Option String))
  | toolRes (content : String) (toolCallId : String) (toolCalls : List (Option String))
  | system (content : String)
deriving DecidableEq, Repr

/-- The message's text content. -/
def ChatMsg.content : ChatMsg → String
  | .human c => c
  | .ai c _ => c
  | .toolRes c _ _ => c
  | .system c => c

/-- `isinstance(msg, ToolMessage)`. -/
def isToolRes : ChatMsg → Bool
  | .toolRes _ _ _ => true
  | _ => false

/-- `isinstance(msg, AIMessage)`. -/
def isAIMsg : ChatMsg → Bool
  | .ai _ _ => true
  | _ => false

/-- `getattr(msg, "tool_calls", None)`, with `None`/absence modelled as `[]`
(both are falsy and have no members). -/
def msgToolCalls : ChatMsg → List (Option String)
  | .ai _ tcs => tcs
  | .toolRes _ _ tcs => tcs
  | _ => []

/-- `next_tools_or_end(state)` (logistic graph router): `none` models the
`IndexError` raised on an empty message list. -/
def next_tools_or_end (messages : List ChatMsg) : Option String :=
  match messages.getLast? with
  | none => none
  | some msg =>
      if isToolRes msg then some "__end__"
      else if msgToolCalls msg ≠ [] then some "orders_tools" else some "__end__"

/-- `tools_or_next(tools_node, end_node)`'s `custom_tools_condition_fn` on a
list-shaped state; `none` models the raise on an empty transcript. -/
def custom_tools_condition_fn (tools_node end_node : String) (messages : List ChatMsg) :
    Option String :=
  match messages.getLast? with
  | none => none
  | some msg =>
      if isToolRes msg then some end_node
      else if (msgToolCalls msg).length > 0 then some tools_node
      else some end_node

/-! ## Reflection node loop-guard (`_reflection_node`) -/

/-- The structured reflection output (`ShouldContinue`). -/
structure ReflectionVerdict where
  should_continue : Bool
  reason : String
deriving DecidableEq, Repr

/-- `is_duplicate_message`: `len(messages) > 2 and
messages[-1].content == messages[-3].content`. -/
def isDuplicateMessage (messages : List ChatMsg) : Bool :=
  decide (messages.length > 2) &&
    decide ((messages.get? (messages.length - 1)).map ChatMsg.content
      = (messages.get? (messages.length - 3)).map ChatMsg.content)

/-- The reflection node's `next_node` decision:
`SUPERVISOR if (verdict.should_continue and not is_duplicate_message) else END`.
The supervisor node name is a parameter (`"exchange_supervisor"` in the
auction graph, `"logistic_supervisor"` in the logistic one). -/
def reflectionNextNode (supervisorNode : String) (messages : List ChatMsg)
    (verdict : ReflectionVerdict) : String :=
  if verdict.should_continue && ! isDuplicateMessage messages then supervisorNode
  else "__end__"

/-! ## Inventory / orders node safety net (`_inventory_node`, `_orders_node`) -/

/-- Failure-keyword match on one tool result:
`"error" in s.lower() or "failed" in s.lower() or "timeout" in s.lower()`. -/
def isFailureText (s : String) : Bool :=
  containsSubstr "error" (pyLower s) || containsSubstr "failed" (pyLower s)
    || containsSubstr "timeout" (pyLower s)

/-- The tool results collected for the current turn: contents of the
`ToolMessage`s whose `tool_call_id` belongs to the last tool-calling
`AIMessage`, scanned in reverse transcript order. -/
def collectedToolResults (messages : List ChatMsg) : List String :=
  match messages.reverse.find? (fun m => isAIMsg m && ! (msgToolCalls m).isEmpty) with
  | none => []
  | some lastAI =>
      let ids := (msgToolCalls lastAI).filterMap (fun o => o)
      messages.reverse.filterMap (fun m =>
        match m with
        | .toolRes content tcid _ => if tcid ∈ ids then some content else none
        | _ => none)

/-- `any_tool_failed` for the current turn. -/
def anyToolFailed (messages : List ChatMsg) : Bool :=
  (collectedToolResults messages).any isFailureText

/-- The LLM's reply to an inventory/orders node invocation. -/
structure LLMReply where
  content : String
  toolCalls : List (Option String)
deriving DecidableEq, Repr

/-- The inventory node's forced apologetic message. -/
def inventoryForcedText : String :=
  "I encountered some issues retrieving information for your request. Some parts could not be completed at this time due to a technical issue. Please try again later."

/-- The orders node's forced apologetic message. -/
def ordersForcedText : String :=
  "I'm sorry, I was unable to complete your order request for all items. An issue occurred for some parts. Please try again later."

/-- `_inventory_node`'s returned message after the safety net, as a function
of the transcript and of the opaque LLM's reply. -/
def inventoryNodeReply (messages : List ChatMsg) (llmReply : LLMReply) : LLMReply :=
  if anyToolFailed messages && ! llmReply.toolCalls.isEmpty then
    { content := inventoryForcedText, toolCalls := [] }
  else llmReply

/-- `_orders_node`'s returned message after the safety net. -/
def ordersNodeReply (messages : List ChatMsg) (llmReply : LLMReply) : LLMReply :=
  if anyToolFailed messages && ! llmReply.toolCalls.isEmpty then
    { content := ordersForcedText, toolCalls := [] }
  else llmReply

/-! ## BroadcastOrchestrator: the logistic `create_order` tool -/

/-- Outcome of a tool call: a raised exception or a returned string. -/
inductive ToolOutcome
  | raised (msg : String)
  | returned (value : String)
deriving DecidableEq, Repr

/-- Observable trace of one `create_order` call: its outcome, whether an
A2A client was created, and how many broadcast attempts were made. -/
structure CreateOrderTrace where
  outcome : ToolOutcome
  clientCreated : Bool
  broadcastAttempts : Nat
deriving DecidableEq, Repr

/-- `create_order(farm, quantity, price)` (logistic supervisor tool).
`messageTransport` is `DEFAULT_MESSAGE_TRANSPORT`; `broadcasts k` is the
opaque transport's result for the `k`-th broadcast attempt (`.error`
models `client.broadcast_message` raising). The source awaits the
broadcast exactly once (`broadcasts 0`); client and request construction
are modelled as succeeding. `price` is modelled as a rational: only its
sign is inspected. -/
def create_order (messageTransport : String) (farm : String) (quantity : Int) (price : ℚ)
    (broadcasts : Nat → Except String (List RawResponse)) : CreateOrderTrace :=
  if messageTransport ≠ "SLIM" then
    ⟨.raised "Only SLIM transport is supported for logistic agents.", false, 0⟩
  else
    let farm := pyLower (pyStrip farm)
    if price ≤ 0 ∨ quantity ≤ 0 then
      ⟨.returned "Price and quantity must both be greater than zero.", false, 0⟩
    else if farm = "" then
      ⟨.returned "No farm provided. Please specify a farm.", false, 0⟩
    else
      match broadcasts 0 with
      | .error e => ⟨.raised e, true, 1⟩
      | .ok responses => ⟨.returned (summarizeA2AResponses responses), true, 1⟩

/-- Observable trace of the spec's retrying orchestrator, with the backoff
delays (in seconds) it sleeps between attempts. -/
structure SpecOrderTrace where
  outcome : ToolOutcome
  broadcastAttempts : Nat
  backoffDelays : List Nat
deriving DecidableEq, Repr

/-- Modelled from the spec: retry the whole broadcast up to 3 attempts
total with exponential backoff delays 2s, 4s between attempts (the spec's
8s delay never elapses within a 3-attempt budget), then surface a fatal
error. This retry logic is absent from the source; it exists here only as
the reference point of the spec's retry claim. -/
def specBroadcastWithRetry (broadcasts : Nat → Except String (List RawResponse)) :
    Except String (List RawResponse) × Nat × List Nat :=
  match broadcasts 0 with
  | .ok rs => (.ok rs, 1, [])
  | .error _ =>
      match broadcasts 1 with
      | .ok rs => (.ok rs, 2, [2])
      | .error _ =>
          match broadcasts 2 with
          | .ok rs => (.ok rs, 3, [2, 4])
          | .error e => (.error e, 3, [2, 4])

/-- Modelled from the spec: `create_order` as §4.4 describes it, with the
broadcast retried via `specBroadcastWithRetry` and a fatal service error
surfaced after the retry budget is exhausted. -/
def spec_create_order (messageTransport : String) (farm : String) (quantity : Int)
    (price : ℚ) (broadcasts : Nat → Except String (List RawResponse)) : SpecOrderTrace :=
  if messageTransport ≠ "SLIM" then
    ⟨.raised "Only SLIM transport is supported for logistic agents.", 0, []⟩
  else
    let farm := pyLower (pyStrip farm)
    if price ≤ 0 ∨ quantity ≤ 0 then
      ⟨.returned "Price and quantity must both be greater than zero.", 0, []⟩
    else if farm = "" then
      ⟨.returned "No farm provided. Please specify a farm.", 0, []⟩
    else
      match specBroadcastWithRetry broadcasts with
      | (.error e, n, delays) => ⟨.raised e, n, delays⟩
      | (.ok rs, n, delays) => ⟨.returned (summarizeA2AResponses rs), n, delays⟩

/-- A transport that raises on the first broadcast attempt and succeeds
(with an empty response list) on every later one. -/
def flakyBroadcast : Nat → Except String (List RawResponse)
  | 0 => .error "SLIM broadcast failed"
  | _ + 1 => .ok []

/-- A transport whose broadcasts always succeed with no responses. -/
def okBroadcast : Nat → Except String (List RawResponse) := fun _ => .ok []

/-- A transcript whose current tool round produced a failing tool result. -/
def failedTurnTranscript : List ChatMsg :=
  [.human "get yields", .ai "" [some "call1"],
   .toolRes "A2AAgentError: request timeout" "call1" []]


/-! ## Proofs -/

theorem codeStep_eq_parse (s : AggState) (r : RawResponse) :
    codeStep s r = match parseResponse r with
      | none => s
      | some e => stepEv s e := by
  unfold codeStep parseResponse
  by_cases hm : r.malformed
  · simp [hm]
  · by_cases ht : extractText r.parts = ""
    · simp [hm, ht]
    · by_cases hi : containsSubstr "idle" (pyLower (extractText r.parts))
      · simp [hm, ht, hi]
      · by_cases hd : hasDeliveredWord (extractText r.parts)
        · simp [hm, ht, hi, hd, stepEv]
        · simp [hm, ht, hi, hd, stepEv]

theorem foldl_codeStep_eq (rs : List RawResponse) (s : AggState) :
    rs.foldl codeStep s = (rs.filterMap parseResponse).foldl stepEv s := by
  induction rs generalizing s with
  | nil => rfl
  | cons r rest ih =>
      rw [List.foldl_cons, codeStep_eq_parse]
      cases hp : parseResponse r with
      | none => simp [List.filterMap_cons, hp, ih]
      | some e => simp [List.filterMap_cons, hp, List.foldl_cons, ih]

theorem lookupS_append (m : List (String × List String)) (n : String)
    (v : List String) (a : String) :
    lookupS (m ++ [(n, v)]) a =
      match lookupS m a with
      | some w => some w
      | none => if n = a then some v else none := by
  induction m with
  | nil => simp [lookupS]
  | cons p rest ih =>
      by_cases h : p.1 = a
      · simp [lookupS, h]
      · simpa [lookupS, h] using ih

theorem lookupS_setS (m : List (String × List String)) (k : String)
    (v : List String) (a : String) :
    lookupS (setS m k v) a =
      if a = k then (lookupS m k).map (fun _ => v) else lookupS m a := by
  induction m with
  | nil => simp [setS, lookupS]
  | cons p rest ih =>
      obtain ⟨pk, pv⟩ := p
      show lookupS ((if pk = k then (k, v) else (pk, pv)) :: setS rest k v) a = _
      by_cases hk : pk = k
      · subst hk
        rw [if_pos rfl]
        show (if pk = a then some v else lookupS (setS rest pk v) a) = _
        by_cases ha : a = pk
        · subst ha
          simp [lookupS]
        · rw [if_neg (fun h => ha h.symm), ih, if_neg ha, if_neg ha]
          show lookupS rest a = lookupS ((pk, pv) :: rest) a
          rw [show lookupS ((pk, pv) :: rest) a
                = if pk = a then some pv else lookupS rest a from rfl,
              if_neg (fun h => ha h.symm)]
      · rw [if_neg hk]
        show (if pk = a then some pv else lookupS (setS rest k v) a) = _
        by_cases hpa : pk = a
        · have ha : ¬ a = k := fun h => hk (hpa.trans h)
          rw [if_pos hpa, if_neg ha]
          show some pv = lookupS ((pk, pv) :: rest) a
          rw [show lookupS ((pk, pv) :: rest) a
                = if pk = a then some pv else lookupS rest a from rfl, if_pos hpa]
        · rw [if_neg hpa, ih]
          have h1 : lookupS ((pk, pv) :: rest) k = lookupS rest k := by
            rw [show lookupS ((pk, pv) :: rest) k
                  = if pk = k then some pv else lookupS rest k from rfl, if_neg hk]
          have h2 : lookupS ((pk, pv) :: rest) a = lookupS rest a := by
            rw [show lookupS ((pk, pv) :: rest) a
                  = if pk = a then some pv else lookupS rest a from rfl, if_neg hpa]
          rw [h1, h2]

theorem stepEv_deliveredSeg (s : AggState) (seg : String) :
    stepEv s (.deliveredSeg seg) =
      { s with delivered := s.delivered ++ [seg], seen := true } := rfl

theorem stepEv_status_order (s : AggState) (n t : String) :
    (stepEv s (.status n t)).order =
      if (lookupS s.statuses n).isSome then s.order else s.order ++ [n] := rfl

theorem stepEv_status_delivered (s : AggState) (n t : String) :
    (stepEv s (.status n t)).delivered = s.delivered := rfl

theorem stepEv_status_seen (s : AggState) (n t : String) :
    (stepEv s (.status n t)).seen = s.seen := rfl

theorem dedupPush_eq (cur : List String) (t : String) :
    dedupPush cur t = if cur = [] ∨ cur.getLast? ≠ some t then cur ++ [t] else cur := by
  unfold dedupPush
  by_cases h : cur.getLast? = some t
  · have hne : cur ≠ [] := by
      intro hc
      rw [hc] at h
      simp at h
    simp [h, hne]
  · simp [h]

theorem stepEv_status_lookup (s : AggState) (n t a : String) :
    lookupS (stepEv s (.status n t)).statuses a =
      if a = n then some (dedupPush ((lookupS s.statuses n).getD []) t)
      else lookupS s.statuses a := by
  cases hn : lookupS s.statuses n with
  | some cur =>
      simp only [stepEv, hn, Option.isSome_some, if_true, Option.getD_some]
      by_cases hcond : cur = [] ∨ cur.getLast? ≠ some t
      · rw [if_pos hcond, lookupS_setS]
        by_cases ha : a = n
        · rw [if_pos ha, if_pos ha, hn, dedupPush_eq, if_pos hcond]
          rfl
        · rw [if_neg ha, if_neg ha]
      · rw [if_neg hcond]
        by_cases ha : a = n
        · rw [if_pos ha, ha, hn, dedupPush_eq, if_neg hcond]
        · rw [if_neg ha]
  | none =>
      have hm0 : lookupS (s.statuses ++ [(n, [])]) n = some [] := by
        rw [lookupS_append, hn]
        simp
      simp only [stepEv, hn, Option.isSome_none, Bool.false_eq_true, if_false, hm0,
        Option.getD_some, Option.getD_none]
      rw [if_pos (Or.inl trivial : True ∨ ([] : List String).getLast? ≠ some t),
        lookupS_setS, hm0]
      by_cases ha : a = n
      · rw [if_pos ha, if_pos ha]
        rfl
      · rw [if_neg ha, if_neg ha, lookupS_append]
        cases h : lookupS s.statuses a with
        | some w => rfl
        | none => exact if_neg (fun h' => ha h'.symm)

theorem WF_aggInit : WF aggInit := by
  intro a
  simp [aggInit, lookupS]

theorem WF_stepEv (s : AggState) (e : AggEvent) (h : WF s) : WF (stepEv s e) := by
  cases e with
  | deliveredSeg seg => exact fun a => h a
  | status n t =>
      intro a
      rw [stepEv_status_lookup, stepEv_status_order]
      by_cases ha : a = n
      · subst ha
        rw [if_pos rfl]
        by_cases hp : (lookupS s.statuses a).isSome
        · rw [if_pos hp]
          simp only [Option.isSome_some, true_iff]
          exact (h a).mp hp
        · rw [if_neg hp]
          simp only [Option.isSome_some, true_iff]
          exact List.mem_append_right _ (List.mem_singleton.mpr rfl)
      · rw [if_neg ha]
        by_cases hp : (lookupS s.statuses n).isSome
        · rw [if_pos hp]
          exact h a
        · rw [if_neg hp]
          constructor
          · intro hs
            exact List.mem_append_left _ ((h a).mp hs)
          · intro hm
            rcases List.mem_append.mp hm with hm | hm
            · exact (h a).mpr hm
            · exact absurd (List.mem_singleton.mp hm) ha

theorem textsOf_status_cons (n t a : String) (rest : List AggEvent) :
    textsOf (.status n t :: rest) a =
      if n = a then t :: textsOf rest a else textsOf rest a := by
  by_cases h : n = a <;> simp [textsOf, List.filterMap_cons, h]

/-- The complete characterisation of the aggregation loop: folding
`stepEv` computes first-seen sender order, per-sender adjacent-deduped
texts, delivered segments in encounter order, and the delivered flag. -/
theorem foldl_stepEv_char (evs : List AggEvent) (s : AggState) (hwf : WF s) :
    WF (evs.foldl stepEv s) ∧
    (evs.foldl stepEv s).order = firstSeenFrom s.order evs ∧
    (∀ a, lookupS (evs.foldl stepEv s).statuses a =
      match lookupS s.statuses a with
      | some cur => some (dedupAppend cur (textsOf evs a))
      | none => if textsOf evs a = [] then none
                else some (adjacentDedup (textsOf evs a))) ∧
    (evs.foldl stepEv s).delivered = s.delivered ++ deliveredSegsOf evs ∧
    (evs.foldl stepEv s).seen = (s.seen || deliveredSeenOf evs) := by
  induction evs generalizing s with
  | nil =>
      refine ⟨hwf, rfl, ?_, by simp [deliveredSegsOf], by simp [deliveredSeenOf]⟩
      intro a
      show lookupS s.statuses a = _
      cases h : lookupS s.statuses a with
      | some cur => rfl
      | none => simp [textsOf]
  | cons e rest ih =>
      have hwf' := WF_stepEv s e hwf
      obtain ⟨w1, w2, w3, w4, w5⟩ := ih (stepEv s e) hwf'
      simp only [List.foldl_cons]
      cases e with
      | deliveredSeg seg =>
          refine ⟨w1, w2, fun a => w3 a, ?_, ?_⟩
          · rw [w4]
            show s.delivered ++ [seg] ++ deliveredSegsOf rest = _
            rw [List.append_assoc]
            rfl
          · rw [w5]
            show (true || deliveredSeenOf rest) = (s.seen || (true || deliveredSeenOf rest))
            simp
      | status n t =>
          refine ⟨w1, ?_, ?_, w4, w5⟩
          · rw [w2]
            have horder : (stepEv s (.status n t)).order =
                if n ∈ s.order then s.order else s.order ++ [n] := by
              rw [stepEv_status_order]
              by_cases hp : n ∈ s.order
              · rw [if_pos ((hwf n).mpr hp), if_pos hp]
              · rw [if_neg (fun hs => hp ((hwf n).mp hs)), if_neg hp]
            rw [horder]
            rfl
          · intro a
            rw [w3 a, stepEv_status_lookup]
            by_cases ha : a = n
            · rw [if_pos ha]
              subst ha
              have htexts : textsOf (AggEvent.status a t :: rest) a = t :: textsOf rest a := by
                rw [textsOf_status_cons, if_pos rfl]
              rw [htexts]
              cases h : lookupS s.statuses a with
              | some cur => rfl
              | none =>
                  rw [if_neg (List.cons_ne_nil t (textsOf rest a))]
                  rfl
            · rw [if_neg ha]
              have htexts : textsOf (AggEvent.status n t :: rest) a = textsOf rest a := by
                rw [textsOf_status_cons, if_neg (fun h => ha h.symm)]
              rw [htexts]

theorem mem_firstSeenFrom {a : String} :
    ∀ (evs : List AggEvent) (acc : List String), a ∈ firstSeenFrom acc evs →
      a ∈ acc ∨ textsOf evs a ≠ [] := by
  intro evs
  induction evs with
  | nil => exact fun acc h => Or.inl h
  | cons e rest ih =>
      intro acc h
      cases e with
      | deliveredSeg seg =>
          rcases ih acc h with h1 | h2
          · exact Or.inl h1
          · exact Or.inr h2
      | status n t =>
          rcases ih (if n ∈ acc then acc else acc ++ [n]) h with h1 | h2
          · by_cases hn : n ∈ acc
            · rw [if_pos hn] at h1
              exact Or.inl h1
            · rw [if_neg hn] at h1
              rcases List.mem_append.mp h1 with h3 | h3
              · exact Or.inl h3
              · have han : a = n := List.mem_singleton.mp h3
                right
                rw [textsOf_status_cons, if_pos han.symm]
                exact List.cons_ne_nil _ _
          · right
            rw [textsOf_status_cons]
            by_cases hna : n = a
            · rw [if_pos hna]
              exact List.cons_ne_nil _ _
            · rw [if_neg hna]
              exact h2

theorem dedupPush_ne_nil (cur : List String) (t : String) : dedupPush cur t ≠ [] := by
  unfold dedupPush
  by_cases h : cur.getLast? = some t
  · rw [if_pos h]
    intro hc
    rw [hc] at h
    simp at h
  · rw [if_neg h]
    simp

theorem dedupAppend_ne_nil (ts : List String) (cur : List String) (h : cur ≠ []) :
    dedupAppend cur ts ≠ [] := by
  induction ts generalizing cur with
  | nil => exact h
  | cons t rest ih => exact ih (dedupPush cur t) (dedupPush_ne_nil cur t)

theorem adjacentDedup_ne_nil (ts : List String) (h : ts ≠ []) : adjacentDedup ts ≠ [] := by
  cases ts with
  | nil => exact absurd rfl h
  | cons t rest => exact dedupAppend_ne_nil rest (dedupPush [] t) (dedupPush_ne_nil [] t)

theorem filterMap_eq_map_on {α β : Type} (l : List α) (f : α → Option β) (g : α → β)
    (h : ∀ a ∈ l, f a = some (g a)) : l.filterMap f = l.map g := by
  induction l with
  | nil => rfl
  | cons x xs ih =>
      rw [List.filterMap_cons, h x (List.mem_cons_self x xs), List.map_cons,
        ih (fun a ha => h a (List.mem_cons_of_mem x ha))]

/-- `_summarize_a2a_responses` computes exactly the reference algorithm. -/
theorem summarize_eq_spec (rs : List RawResponse) :
    summarizeA2AResponses rs = specSummarize rs := by
  unfold summarizeA2AResponses specSummarize renderAgg
  rw [foldl_codeStep_eq]
  obtain ⟨_, horder, hstat, hdel, hseen⟩ :=
    foldl_stepEv_char (rs.filterMap parseResponse) aggInit WF_aggInit
  rw [horder, hdel, hseen]
  have hsegs :
      (firstSeenFrom aggInit.order (rs.filterMap parseResponse)).filterMap (fun agent =>
        match lookupS (List.foldl stepEv aggInit (rs.filterMap parseResponse)).statuses agent with
        | some l => if l = [] then none
                    else some (agent ++ ": " ++ String.intercalate ", " l)
        | none => none) =
      (firstSeenFrom aggInit.order (rs.filterMap parseResponse)).map (fun agent =>
        agent ++ ": " ++ String.intercalate ", "
          (adjacentDedup (textsOf (rs.filterMap parseResponse) agent))) := by
    apply filterMap_eq_map_on
    intro agent hmem
    have htne : textsOf (rs.filterMap parseResponse) agent ≠ [] := by
      rcases mem_firstSeenFrom (rs.filterMap parseResponse) aggInit.order hmem with h1 | h2
      · exact absurd h1 (List.not_mem_nil agent)
      · exact h2
    have hlook := hstat agent
    rw [show lookupS aggInit.statuses agent = none from rfl] at hlook
    rw [hlook, if_neg htne]
    exact if_neg (adjacentDedup_ne_nil _ htne)
  rw [hsegs]
  rfl

/-! ## Agent-node unfolding lemmas -/

theorem farmNode_eq (text : String) : farmNode text =
    if extract_status (pyStrip text) = .RECEIVED_ORDER then "HANDOVER_TO_SHIPPER"
    else "Action 'None' received. No shipper handling required. Shipper remains IDLE. No further action required." := rfl

theorem shipperNode_eq (text : String) : shipperNode text =
    if pyUpper (pyStrip text) = "HANDOVER_TO_SHIPPER" then "CUSTOMS_CLEARANCE"
    else if pyUpper (pyStrip text) = "PAYMENT_COMPLETE" then "DELIVERED"
    else "SHIPPER_IDLE" := rfl

theorem accountantNode_eq (text : String) : accountantNode text =
    if containsSubstr "CUSTOMS_CLEARANCE" (pyUpper (pyStrip text)) then "PAYMENT_COMPLETE"
    else "Accountant idle, no action taken." := rfl

theorem extract_status_received (raw : String)
    (h : containsSubstr "RECEIVED_ORDER" raw = true) :
    extract_status raw = .RECEIVED_ORDER := by
  unfold extract_status
  simp only [STATUS_LOOKUP, extractStatusLoop]
  rw [if_pos h]

/-! ## Claim theorems -/

/-- C1: the response aggregator `_summarize_a2a_responses` equals the spec's
reference algorithm: responses are iterated in receipt order, skipping
empty or `idle`-containing texts; whole-word `delivered` texts become their
own `"{sender}: {text}"` segments in encounter order and set
`delivered_seen`; other texts accumulate per sender in first-seen-sender
order with adjacent-dedup only; empty result yields the literal
`"No non-idle status updates received."`; otherwise the segments are
joined with `" | "` after `"Order status updates: "`, suffixed `" (final)"`
iff `delivered_seen`; malformed responses are silently skipped. -/
theorem C1_aggregator_equals_spec_reference (responses : List RawResponse) :
    summarizeA2AResponses responses = specSummarize responses :=
  summarize_eq_spec responses

/-- C2 counterexample: on a transport that raises on the first broadcast
attempt and succeeds on the next, `create_order` raises after exactly one
broadcast attempt, whereas the claim's retrying orchestrator would retry
(2 attempts, one 2s backoff delay) and return a summary — so the broadcast
is not retried up to 3 attempts as claimed. -/
theorem C2_counterexample_no_retry_on_transport_failure :
    create_order "SLIM" "tatooine" 1 10 flakyBroadcast
      = ⟨.raised "SLIM broadcast failed", true, 1⟩ ∧
    spec_create_order "SLIM" "tatooine" 1 10 flakyBroadcast
      = ⟨.returned "No non-idle status updates received.", 2, [2]⟩ ∧
    (create_order "SLIM" "tatooine" 1 10 flakyBroadcast).broadcastAttempts
      ≠ (spec_create_order "SLIM" "tatooine" 1 10 flakyBroadcast).broadcastAttempts :=
  ⟨rfl, rfl, by decide⟩

/-- C2 (amended): when the transport-level broadcast raises, `create_order`
performs no retry at all: the single broadcast attempt's exception
propagates to the caller unchanged (an error surfaces, never a partial
summary), with exactly one broadcast attempt and no backoff. -/
theorem C2_amended_single_broadcast_attempt (farm : String) (quantity : Int)
    (price : ℚ) (broadcasts : Nat → Except String (List RawResponse)) (e : String)
    (hp : 0 < price) (hq : 0 < quantity) (hfarm : pyLower (pyStrip farm) ≠ "")
    (hfail : broadcasts 0 = .error e) :
    create_order "SLIM" farm quantity price broadcasts = ⟨.raised e, true, 1⟩ := by
  have hpq : ¬ (price ≤ 0 ∨ quantity ≤ 0) := by
    rintro (h1 | h2)
    · exact absurd hp (not_lt.mpr h1)
    · exact absurd hq (not_lt.mpr h2)
  simp only [create_order]
  rw [if_neg (fun hc => hc rfl), if_neg hpq, if_neg hfarm, hfail]

/-- C2 witness: the amended statement at a concrete failing transport. -/
theorem C2_witness_single_broadcast_attempt :
    create_order "SLIM" "tatooine" 1 10 flakyBroadcast
      = ⟨.raised "SLIM broadcast failed", true, 1⟩ :=
  C2_amended_single_broadcast_attempt "tatooine" 1 10 flakyBroadcast
    "SLIM broadcast failed" (by decide) (by decide) (by decide) rfl

/-- C3 counterexample: the accountant's idle notice is
`"Accountant idle, no action taken."`, which does not contain the
(case-sensitive) substring `"IDLE"` — refuting the claim that every
agent's idle reply contains `"IDLE"`. -/
theorem C3_counterexample_accountant_idle_lowercase :
    accountantNode "random message" = "Accountant idle, no action taken." ∧
    containsSubstr "IDLE" (accountantNode "random message") = false := by
  constructor <;> decide

/-- C3 (amended): each agent node is a total single-transition function:
the farm replies `HANDOVER_TO_SHIPPER` exactly when the extracted status is
`RECEIVED_ORDER`; the shipper replies `CUSTOMS_CLEARANCE` on
`HANDOVER_TO_SHIPPER` and `DELIVERED` on `PAYMENT_COMPLETE` (exact match
after strip/upper); the accountant replies `PAYMENT_COMPLETE` on
`CUSTOMS_CLEARANCE`; and on every other input each agent replies with an
idle notice containing the case-insensitive substring `idle` (uppercase
`IDLE` for farm and shipper, lowercase `idle` for the accountant). -/
theorem C3_amended_agent_transitions_total (input : String) :
    (extract_status (pyStrip input) = .RECEIVED_ORDER →
      farmNode input = "HANDOVER_TO_SHIPPER") ∧
    (extract_status (pyStrip input) ≠ .RECEIVED_ORDER →
      containsSubstr "idle" (pyLower (farmNode input)) = true) ∧
    (pyUpper (pyStrip input) = "HANDOVER_TO_SHIPPER" →
      shipperNode input = "CUSTOMS_CLEARANCE") ∧
    (pyUpper (pyStrip input) = "PAYMENT_COMPLETE" →
      shipperNode input = "DELIVERED") ∧
    (pyUpper (pyStrip input) ≠ "HANDOVER_TO_SHIPPER" →
      pyUpper (pyStrip input) ≠ "PAYMENT_COMPLETE" →
      shipperNode input = "SHIPPER_IDLE" ∧
      containsSubstr "idle" (pyLower (shipperNode input)) = true) ∧
    (containsSubstr "CUSTOMS_CLEARANCE" (pyUpper (pyStrip input)) = true →
      accountantNode input = "PAYMENT_COMPLETE") ∧
    (containsSubstr "CUSTOMS_CLEARANCE" (pyUpper (pyStrip input)) = false →
      accountantNode input = "Accountant idle, no action taken." ∧
      containsSubstr "idle" (pyLower (accountantNode input)) = true) := by
  refine ⟨fun h => ?_, fun h => ?_, fun h => ?_, fun h => ?_,
    fun h1 h2 => ?_, fun h => ?_, fun h => ?_⟩
  · rw [farmNode_eq, if_pos h]
  · rw [farmNode_eq, if_neg h]
    decide
  · rw [shipperNode_eq, if_pos h]
  · by_cases h1 : pyUpper (pyStrip input) = "HANDOVER_TO_SHIPPER"
    · rw [h] at h1
      exact absurd h1 (by decide)
    · rw [shipperNode_eq, if_neg h1, if_pos h]
  · rw [shipperNode_eq, if_neg h1, if_neg h2]
    exact ⟨rfl, by decide⟩
  · rw [accountantNode_eq, if_pos h]
  · rw [accountantNode_eq, if_neg (by rw [h]; exact Bool.false_ne_true)]
    exact ⟨rfl, by decide⟩

/-- C3 witness: the amended statement at concrete inputs for each agent. -/
theorem C3_witness_agent_transitions :
    farmNode "Status: RECEIVED_ORDER" = "HANDOVER_TO_SHIPPER" ∧
    shipperNode " handover_to_shipper " = "CUSTOMS_CLEARANCE" ∧
    shipperNode "PAYMENT_COMPLETE" = "DELIVERED" ∧
    accountantNode "please do customs_clearance now" = "PAYMENT_COMPLETE" ∧
    containsSubstr "idle" (pyLower (accountantNode "random message")) = true :=
  ⟨(C3_amended_agent_transitions_total "Status: RECEIVED_ORDER").1 (by decide),
   (C3_amended_agent_transitions_total " handover_to_shipper ").2.2.1 (by decide),
   (C3_amended_agent_transitions_total "PAYMENT_COMPLETE").2.2.2.1 (by decide),
   (C3_amended_agent_transitions_total "please do customs_clearance now").2.2.2.2.2.1
     (by decide),
   ((C3_amended_agent_transitions_total "random message").2.2.2.2.2.2 (by decide)).2⟩

/-- C4: with non-positive price or quantity, `create_order` returns exactly
`"Price and quantity must both be greater than zero."` with no client
creation and no broadcast attempted; an empty (stripped) farm likewise
returns a validation string with no network call, not an exception. -/
theorem C4_validation_short_circuits (farm : String) (quantity : Int) (price : ℚ)
    (broadcasts : Nat → Except String (List RawResponse)) :
    (price ≤ 0 ∨ quantity ≤ 0 →
      create_order "SLIM" farm quantity price broadcasts
        = ⟨.returned "Price and quantity must both be greater than zero.", false, 0⟩) ∧
    (0 < price → 0 < quantity → pyLower (pyStrip farm) = "" →
      create_order "SLIM" farm quantity price broadcasts
        = ⟨.returned "No farm provided. Please specify a farm.", false, 0⟩) := by
  constructor
  · intro h
    simp only [create_order]
    rw [if_neg (fun hc => hc rfl), if_pos h]
  · intro hp hq hfarm
    have hpq : ¬ (price ≤ 0 ∨ quantity ≤ 0) := by
      rintro (h1 | h2)
      · exact absurd hp (not_lt.mpr h1)
      · exact absurd hq (not_lt.mpr h2)
    simp only [create_order]
    rw [if_neg (fun hc => hc rfl), if_neg hpq, if_pos hfarm]

/-- C4 witness: the spec's validation scenario `create_order("brazil", 0, 10)`
and an empty farm, each with zero network activity. -/
theorem C4_witness_validation :
    create_order "SLIM" "brazil" 0 10 okBroadcast
      = ⟨.returned "Price and quantity must both be greater than zero.", false, 0⟩ ∧
    create_order "SLIM" "   " 5 10 okBroadcast
      = ⟨.returned "No farm provided. Please specify a farm.", false, 0⟩ :=
  ⟨(C4_validation_short_circuits "brazil" 0 10 okBroadcast).1 (Or.inr (by decide)),
   (C4_validation_short_circuits "   " 5 10 okBroadcast).2 (by decide) (by decide)
     (by decide)⟩

/-- C5 counterexample: `extract_status` never upper-cases its input, so a
canonical token written in lower case does not match: on
`"received_order"` the claimed equivalence (non-`STATUS_UNKNOWN` iff a
canonical token occurs in the upper-cased text) fails. -/
theorem C5_counterexample_case_sensitive_matching :
    extract_status "received_order" = .STATUS_UNKNOWN ∧
    containsSubstr "RECEIVED_ORDER" (pyUpper "received_order") = true := by
  constructor <;> decide

/-- C5 (amended): `extract_status` matches canonical status tokens as
substrings of the raw input text, case-sensitively (no upper-casing): the
result differs from `STATUS_UNKNOWN` exactly when one of the five
non-sentinel canonical uppercase tokens occurs as a substring of the text
as written — substring-based, not tokenized. -/
theorem C5_amended_substring_match_on_raw_text (text : String) :
    extract_status text ≠ .STATUS_UNKNOWN ↔
      canonicalTokens.any (fun t => containsSubstr t text) = true := by
  unfold extract_status canonicalTokens
  simp only [STATUS_LOOKUP, extractStatusLoop, List.any_cons, List.any_nil]
  split_ifs <;> simp_all

/-- C5 witness: a text embedding `HANDOVER_TO_SHIPPER_DONE` matches by
substring. -/
theorem C5_witness_substring_match :
    extract_status "HANDOVER_TO_SHIPPER_DONE" ≠ .STATUS_UNKNOWN :=
  (C5_amended_substring_match_on_raw_text "HANDOVER_TO_SHIPPER_DONE").mpr (by decide)

/-- C6: `extract_status` is total: for every string (including `""`) it
returns exactly one member of the enumeration, `STATUS_UNKNOWN` rather
than an absent value for non-matching text despite the nullable return
annotation; in particular `extract_status("")` is `STATUS_UNKNOWN`. -/
theorem C6_extract_status_total :
    (∀ text, ∃! s : LogisticStatus, extract_status text = s) ∧
    extract_status "" = .STATUS_UNKNOWN :=
  ⟨fun text => ⟨extract_status text, rfl, fun _ hy => hy.symm⟩, by decide⟩

/-- C7: the supervisor routers are pure functions of the last transcript
message: a tool-result last message routes to the terminal/next node and
never to the tools node regardless of content (even with a populated
tool-call list); otherwise a non-empty tool-call list routes to the tools
node, and anything else routes to the terminal node. -/
theorem C7_router_pure_function_of_last_message (tools_node end_node : String)
    (messages : List ChatMsg) (last : ChatMsg)
    (hlast : messages.getLast? = some last) :
    (isToolRes last = true →
      next_tools_or_end messages = some "__end__" ∧
      custom_tools_condition_fn tools_node end_node messages = some end_node) ∧
    (isToolRes last = false → msgToolCalls last ≠ [] →
      next_tools_or_end messages = some "orders_tools" ∧
      custom_tools_condition_fn tools_node end_node messages = some tools_node) ∧
    (isToolRes last = false → msgToolCalls last = [] →
      next_tools_or_end messages = some "__end__" ∧
      custom_tools_condition_fn tools_node end_node messages = some end_node) := by
  unfold next_tools_or_end custom_tools_condition_fn
  rw [hlast]
  refine ⟨fun h => ?_, fun h htc => ?_, fun h htc => ?_⟩
  · simp [h]
  · simp [h, htc, List.length_pos.mpr htc]
  · simp [h, htc]

/-- C7 witness: an AI message with a populated tool-call list routes to the
tools node; a tool-result message (even with a populated tool-call
attribute) routes away from the tools node. -/
theorem C7_witness_router :
    next_tools_or_end [ChatMsg.ai "x" [some "1"]] = some "orders_tools" ∧
    next_tools_or_end
      [ChatMsg.ai "x" [some "1"], ChatMsg.toolRes "result" "1" [some "1"]]
      = some "__end__" ∧
    custom_tools_condition_fn "inventory_tools" "reflection"
      [ChatMsg.toolRes "result" "1" [some "1"]] = some "reflection" :=
  ⟨((C7_router_pure_function_of_last_message "orders_tools" "__end__"
      [ChatMsg.ai "x" [some "1"]] (ChatMsg.ai "x" [some "1"]) rfl).2.1
      (by decide) (by decide)).1,
   ((C7_router_pure_function_of_last_message "orders_tools" "__end__"
      [ChatMsg.ai "x" [some "1"], ChatMsg.toolRes "result" "1" [some "1"]]
      (ChatMsg.toolRes "result" "1" [some "1"]) rfl).1 (by decide)).1,
   ((C7_router_pure_function_of_last_message "inventory_tools" "reflection"
      [ChatMsg.toolRes "result" "1" [some "1"]]
      (ChatMsg.toolRes "result" "1" [some "1"]) rfl).1 (by decide)).2⟩

/-- C8: whenever some tool result collected for the current turn signals
failure (case-insensitive `error`/`failed`/`timeout` keyword match), the
inventory and orders nodes never emit tool calls; if the LLM's reply
nonetheless carries tool calls, it is replaced by the fixed apologetic
message with an empty tool-call list. -/
theorem C8_safety_net_discards_tool_calls (messages : List ChatMsg)
    (reply : LLMReply) (hfail : anyToolFailed messages = true) :
    (inventoryNodeReply messages reply).toolCalls = [] ∧
    (ordersNodeReply messages reply).toolCalls = [] ∧
    (reply.toolCalls ≠ [] →
      inventoryNodeReply messages reply = ⟨inventoryForcedText, []⟩ ∧
      ordersNodeReply messages reply = ⟨ordersForcedText, []⟩) := by
  unfold inventoryNodeReply ordersNodeReply
  by_cases h : reply.toolCalls.isEmpty
  · rw [hfail]
    simp [h, List.isEmpty_iff.mp h]
  · rw [hfail]
    simp [h]

/-- C8 witness: after a `timeout` tool result, a reply carrying a new tool
call is replaced by the apologetic message in both nodes. -/
theorem C8_witness_safety_net :
    inventoryNodeReply failedTurnTranscript ⟨"", [some "call2"]⟩
      = ⟨inventoryForcedText, []⟩ ∧
    ordersNodeReply failedTurnTranscript ⟨"", [some "call2"]⟩
      = ⟨ordersForcedText, []⟩ :=
  (C8_safety_net_discards_tool_calls failedTurnTranscript ⟨"", [some "call2"]⟩
    (by decide)).2.2 (by decide)

/-- C9: whenever `is_duplicate_message` holds (more than two messages and
`messages[-1].content == messages[-3].content`, the two most recent
reflection-stage messages being textually identical), the reflection node
routes to `END` for every possible structured verdict — the duplicate
check overrides a `should_continue = true` verdict. -/
theorem C9_duplicate_reflection_forces_end (supervisorNode : String)
    (messages : List ChatMsg) (verdict : ReflectionVerdict)
    (hdup : isDuplicateMessage messages = true) :
    reflectionNextNode supervisorNode messages verdict = "__end__" := by
  unfold reflectionNextNode
  rw [hdup]
  simp

/-- C9 witness: two identical AI messages at positions -1 and -3 force
`__end__` even though the verdict says continue. -/
theorem C9_witness_duplicate_reflection :
    reflectionNextNode "exchange_supervisor"
      [ChatMsg.system "ctx", ChatMsg.ai "same answer" [],
       ChatMsg.system "why", ChatMsg.ai "same answer" []]
      ⟨true, "continue"⟩ = "__end__" :=
  C9_duplicate_reflection_forces_end "exchange_supervisor"
    [ChatMsg.system "ctx", ChatMsg.ai "same answer" [],
     ChatMsg.system "why", ChatMsg.ai "same answer" []]
    ⟨true, "continue"⟩ (by decide)

/-- C10: the shipper matches statuses by exact equality, not substring: any
input whose stripped upper-cased content strictly contains
`HANDOVER_TO_SHIPPER` (or `PAYMENT_COMPLETE`) without being equal to it
yields the idle notice `SHIPPER_IDLE`; the farm, by contrast, extracts the
status by substring via `extract_status` and still advances on a strict
superstring of `RECEIVED_ORDER`. -/
theorem C10_shipper_exact_match_vs_farm_substring (input : String) :
    (containsSubstr "HANDOVER_TO_SHIPPER" (pyUpper (pyStrip input)) = true →
      pyUpper (pyStrip input) ≠ "HANDOVER_TO_SHIPPER" →
      shipperNode input = "SHIPPER_IDLE") ∧
    (containsSubstr "PAYMENT_COMPLETE" (pyUpper (pyStrip input)) = true →
      pyUpper (pyStrip input) ≠ "PAYMENT_COMPLETE" →
      shipperNode input = "SHIPPER_IDLE") ∧
    (containsSubstr "RECEIVED_ORDER" (pyStrip input) = true →
      farmNode input = "HANDOVER_TO_SHIPPER") := by
  refine ⟨fun hsub hne => ?_, fun hsub hne => ?_, fun hsub => ?_⟩
  · have hne2 : pyUpper (pyStrip input) ≠ "PAYMENT_COMPLETE" := by
      intro hc
      rw [hc] at hsub
      exact absurd hsub (by decide)
    rw [shipperNode_eq, if_neg hne, if_neg hne2]
  · have hne2 : pyUpper (pyStrip input) ≠ "HANDOVER_TO_SHIPPER" := by
      intro hc
      rw [hc] at hsub
      exact absurd hsub (by decide)
    rw [shipperNode_eq, if_neg hne2, if_neg hne]
  · rw [farmNode_eq, if_pos (extract_status_received _ hsub)]

/-- C10 witness: the claim's example `"Status: HANDOVER_TO_SHIPPER"` makes
the shipper idle, while the farm advances on a strict superstring of
`RECEIVED_ORDER`. -/
theorem C10_witness_shipper_exact_match :
    shipperNode "Status: HANDOVER_TO_SHIPPER" = "SHIPPER_IDLE" ∧
    farmNode "Status: RECEIVED_ORDER" = "HANDOVER_TO_SHIPPER" :=
  ⟨(C10_shipper_exact_match_vs_farm_substring "Status: HANDOVER_TO_SHIPPER").1
    (by decide) (by decide),
   (C10_shipper_exact_match_vs_farm_substring "Status: RECEIVED_ORDER").2.2
    (by decide)⟩

end CoffeeAgntcy
